import Mathlib

/-
  Verification of the glTF feature-metadata table engine
  (GltfFeatureTable / GltfFeatureTableAccessorProperty /
   GltfFeatureTableArrayProperty / GltfFeatureMetadataCache).

  JavaScript numbers are modelled as exact rationals.  All values that the
  claims exercise (small integers, halves, divisions by type maxima) are
  exactly representable as binary64 floats, so the rational model agrees
  with the JavaScript semantics on every input used below; the one spot
  where JavaScript produces NaN (0/0 inside decodeValue when the computed
  maximum value is 0) is flagged at its use site.
-/

/-- Math.round of JavaScript: round half toward positive infinity. -/
def jsRound (q : ℚ) : ℚ := (⌊q + 1 / 2⌋ : ℤ)

/-- ToInteger of JavaScript restricted to finite inputs: truncate toward zero. -/
def jsTrunc (q : ℚ) : ℤ := if 0 ≤ q then ⌊q⌋ else ⌈q⌉

/-- The glTF component data types used by accessor properties
    (ComponentDatatype in the Cesium core). -/
inductive ComponentDatatype where
  | BYTE
  | UNSIGNED_BYTE
  | SHORT
  | UNSIGNED_SHORT
  | INT
  | UNSIGNED_INT
  | FLOAT
  | DOUBLE
deriving DecidableEq, Repr

open ComponentDatatype

/-- Modelled from the spec: ComponentDatatype.getSizeInBytes is the Cesium core
    helper (not part of the source slice) returning the size of one component
    in bytes; the spec fixes the integer component widths to 1, 2 or 4 bytes
    (sections 3 and 6), matching the glTF component types. -/
def getSizeInBytes : ComponentDatatype → ℕ
  | BYTE => 1
  | UNSIGNED_BYTE => 1
  | SHORT => 2
  | UNSIGNED_SHORT => 2
  | INT => 4
  | UNSIGNED_INT => 4
  | FLOAT => 4
  | DOUBLE => 8

/-- isSignedComponentType from GltfFeatureTableAccessorProperty. -/
def isSignedComponentType (componentType : ComponentDatatype) : Bool :=
  componentType = BYTE || componentType = SHORT || componentType = INT

/-- isUnsignedComponentType from GltfFeatureTableAccessorProperty. -/
def isUnsignedComponentType (componentType : ComponentDatatype) : Bool :=
  componentType = UNSIGNED_BYTE || componentType = UNSIGNED_SHORT ||
    componentType = UNSIGNED_INT

/-- isNormalized from GltfFeatureTableAccessorProperty: a normalization request
    is honoured only for integer component types. -/
def isNormalized (normalized : Bool) (componentType : ComponentDatatype) : Bool :=
  normalized &&
    (isSignedComponentType componentType || isUnsignedComponentType componentType)

/-- getMaximumValue from GltfFeatureTableAccessorProperty, verbatim: the local
    variable named bitDepth is assigned ComponentDatatype.getSizeInBytes, which
    is a byte count, and the powers of two are taken of that byte count.
    For non-integer component types the source returns
    Number.POSITIVE_INFINITY; that value is never read by decodeValue or
    encodeValue (isNormalized is false there), and it is modelled as 0. -/
def getMaximumValue (componentType : ComponentDatatype) : ℚ :=
  let bitDepth := getSizeInBytes componentType
  if isSignedComponentType componentType then 2 ^ (bitDepth - 1) - 1
  else if isUnsignedComponentType componentType then 2 ^ bitDepth - 1
  else 0

/-- getLowestValue from GltfFeatureTableAccessorProperty, same byte-count
    reading of bitDepth as getMaximumValue; the Number.NEGATIVE_INFINITY
    branch for non-integer types is modelled as 0 (the field is never read). -/
def getLowestValue (componentType : ComponentDatatype) : ℚ :=
  let bitDepth := getSizeInBytes componentType
  if isSignedComponentType componentType then -(2 ^ (bitDepth - 1))
  else if isUnsignedComponentType componentType then 0
  else 0

/-- The state of one GltfFeatureTableAccessorProperty instance: the fields the
    constructor stores on this (underscore prefixes dropped).  The typed array
    is a list of component values; none models an undefined _typedArray. -/
structure GltfFeatureTableAccessorProperty where
  componentType : ComponentDatatype
  componentCount : ℕ
  count : ℕ
  typedArray : Option (List ℚ)
  signed : Bool
  normalized : Bool
  lowestValue : ℚ
  maximumValue : ℚ
  initializedWithZeros : Bool
deriving Repr

/-- decodeValue from GltfFeatureTableAccessorProperty.  Note: in the rational
    model division by zero yields 0, while JavaScript yields NaN or Infinity;
    the only reachable division by zero is value / 0 for normalized signed
    BYTE data (where getMaximumValue returns 0), and both semantics are kept
    apart from the values the claims require there. -/
def decodeValue (property : GltfFeatureTableAccessorProperty) (value : ℚ) : ℚ :=
  if !property.normalized then value
  else if property.signed then max (value / property.maximumValue) (-1)
  else value / property.maximumValue

/-- encodeValue from GltfFeatureTableAccessorProperty. -/
def encodeValue (property : GltfFeatureTableAccessorProperty) (value : ℚ) : ℚ :=
  if !property.normalized then value
  else jsRound (value * property.maximumValue)

/-- A value read from or written to a feature table property: a scalar number
    or a packed vector/matrix (the Cartesian/Matrix class types of the source,
    represented by their packed component lists). -/
inductive GltfPropertyValue where
  | scalar (x : ℚ)
  | composite (xs : List ℚ)
deriving DecidableEq, Repr

/-- Packed components of a value (classType.pack). -/
def GltfPropertyValue.components : GltfPropertyValue → List ℚ
  | .scalar x => [x]
  | .composite xs => xs

/-- classType.ZERO for a composite class of the given packed length. -/
def zeroComposite (componentCount : ℕ) : GltfPropertyValue :=
  .composite (List.replicate componentCount 0)

/-- getValue from GltfFeatureTableAccessorProperty.  The JavaScript method
    never assigns to this, so it is a pure function of the property state;
    in particular no backing storage is allocated.  The result parameter only
    selects which object receives the components and does not change them, so
    it is not modelled.  none models the undefined return (the unavailable
    sentinel).  Out-of-range typed array reads (undefined in JavaScript) are
    modelled with default 0; no claim exercises them. -/
def GltfFeatureTableAccessorProperty.getValue
    (p : GltfFeatureTableAccessorProperty) (featureId : ℕ) :
    Option GltfPropertyValue :=
  let startingIndex := featureId * p.componentCount
  if p.initializedWithZeros then
    if p.componentCount = 1 then some (.scalar 0)
    else some (zeroComposite p.componentCount)
  else
    match p.typedArray with
    | none => none
    | some typedArray =>
      if p.componentCount = 1 then
        if p.normalized then
          some (.scalar (decodeValue p (typedArray.getD startingIndex 0)))
        else
          some (.scalar (typedArray.getD startingIndex 0))
      else
        if p.normalized then
          some (.composite ((List.range p.componentCount).map
            (fun i => decodeValue p (typedArray.getD (startingIndex + i) 0))))
        else
          some (.composite ((List.range p.componentCount).map
            (fun i => typedArray.getD (startingIndex + i) 0)))

/-- Storage coercion of a JavaScript typed array element assignment: integer
    arrays truncate to an integer and wrap modulo 2 to the bit width (8 bytes
    of the element size); float arrays store the number unchanged in this
    model.  This is the semantics of Uint8Array and friends, independent of
    the arithmetic in getMaximumValue. -/
def typedArrayStore (componentType : ComponentDatatype) (x : ℚ) : ℚ :=
  if isSignedComponentType componentType then
    let b := 8 * getSizeInBytes componentType
    ((((jsTrunc x + 2 ^ (b - 1)) % (2 ^ b : ℤ)) - 2 ^ (b - 1) : ℤ) : ℚ)
  else if isUnsignedComponentType componentType then
    ((jsTrunc x % (2 ^ (8 * getSizeInBytes componentType) : ℤ) : ℤ) : ℚ)
  else x

/-- Write the packed components xs into the typed array starting at
    startingIndex, each through the typed array storage coercion
    (classType.pack). -/
def storeComponents (componentType : ComponentDatatype) (typedArray : List ℚ)
    (startingIndex : ℕ) (xs : List ℚ) : List ℚ :=
  (List.range xs.length).foldl
    (fun acc i => acc.set (startingIndex + i) (typedArrayStore componentType (xs.getD i 0)))
    typedArray

/-- setValue from GltfFeatureTableAccessorProperty: reads the typed array,
    allocates a zero-filled dense array on demand when initializedWithZeros is
    set, silently returns when the typed array is still undefined, then packs
    and (when normalized) re-encodes each just-packed slot in place. -/
def GltfFeatureTableAccessorProperty.setValue
    (p : GltfFeatureTableAccessorProperty) (featureId : ℕ)
    (value : GltfPropertyValue) : GltfFeatureTableAccessorProperty :=
  let startingIndex := featureId * p.componentCount
  let alloc :=
    if p.initializedWithZeros then
      { p with
        typedArray := some (List.replicate (p.componentCount * p.count) (0 : ℚ))
        initializedWithZeros := false }
    else p
  match alloc.typedArray with
  | none => alloc
  | some typedArray =>
    if p.componentCount = 1 then
      let raw :=
        if p.normalized then encodeValue p (value.components.getD 0 0)
        else value.components.getD 0 0
      { alloc with
        typedArray := some (typedArray.set startingIndex (typedArrayStore p.componentType raw)) }
    else
      let packed := storeComponents p.componentType typedArray startingIndex
        value.components
      let final :=
        if p.normalized then
          (List.range p.componentCount).foldl
            (fun acc i =>
              acc.set (startingIndex + i)
                (typedArrayStore p.componentType (encodeValue p (acc.getD (startingIndex + i) 0))))
            packed
        else packed
      { alloc with typedArray := some final }

/-- The accessor JSON fields that the constructor of
    GltfFeatureTableAccessorProperty reads.  hasBufferView records whether the
    accessor carries the glTF field named bufferView (read by getBuffer and
    getTypedArrayForAccessor); hasBufferViewId records whether it carries a
    field named bufferViewId, which is the distinct name the constructor reads
    when it initializes _initializedWithZeros.  A glTF accessor defines
    bufferView and never bufferViewId. -/
structure AccessorJson where
  componentType : ComponentDatatype
  componentCount : ℕ
  count : ℕ
  byteOffset : ℕ
  normalized : Bool
  hasBufferView : Bool
  hasBufferViewId : Bool
deriving Repr

/-- A typed-array buffer source, as handed to getTypedArrayForAccessor: its
    byte offset into the underlying buffer and the bytes of that underlying
    buffer. -/
structure BufferSource where
  byteOffset : ℕ
  data : List ℚ
deriving Repr

/-- The bufferView JSON entry an accessor references, that is,
    gltf.bufferViews at accessor.bufferView. -/
structure BufferViewJson where
  byteOffset : ℕ
deriving Repr

/-- Modelled from the spec: binaryAccessor.createArrayBufferView, from the
    getBinaryAccessor helper that is absent from the source slice, creates
    the typed view of the accessor data over the buffer bytes at the given
    byte offset (the spec, section 4.2, reads componentCount raw components
    per entity, so the view holds count times componentCount components);
    stated for one-byte component types, where components coincide with
    bytes. -/
def createArrayBufferView (bufferSource : BufferSource) (byteOffset : ℕ)
    (count componentCount : ℕ) : List ℚ :=
  (bufferSource.data.drop byteOffset).take (count * componentCount)

/-- getTypedArrayForAccessor from GltfFeatureTableAccessorProperty: undefined
    when the buffer source is undefined or the accessor has no bufferView;
    otherwise the view created at the combined byte offset
    bufferSource.byteOffset + bufferView.byteOffset + accessor.byteOffset,
    where bufferView is the gltf.bufferViews entry the accessor
    references. -/
def getTypedArrayForAccessor (a : AccessorJson) (bufferView : BufferViewJson)
    (bufferSource : Option BufferSource) : Option (List ℚ) :=
  match bufferSource, a.hasBufferView with
  | some src, true =>
    some (createArrayBufferView src
      (src.byteOffset + bufferView.byteOffset + a.byteOffset)
      a.count a.componentCount)
  | _, _ => none

/-- The constructor of GltfFeatureTableAccessorProperty: bufferView is the
    gltf.bufferViews entry the accessor references and bufferSource the
    embedded buffer bytes of getBufferSource (none when the buffer is
    external or absent, in which case the source registers a continuation on
    cache.getExternalBuffer); _typedArray is initialized with
    getTypedArrayForAccessor exactly as in the source. -/
def mkAccessorProperty (a : AccessorJson) (bufferView : BufferViewJson)
    (bufferSource : Option BufferSource) : GltfFeatureTableAccessorProperty :=
  { componentType := a.componentType
    componentCount := a.componentCount
    count := a.count
    typedArray := getTypedArrayForAccessor a bufferView bufferSource
    signed := isSignedComponentType a.componentType
    normalized := isNormalized a.normalized a.componentType
    lowestValue := getLowestValue a.componentType
    maximumValue := getMaximumValue a.componentType
    initializedWithZeros := !a.hasBufferViewId }

/-- The continuation registered on cache.getExternalBuffer(buffer.uri) in the
    constructor: when the fetch resolves with a buffer source it assigns
    getTypedArrayForAccessor of that source to _typedArray and touches no
    other field. -/
def bindFetchedBuffer (p : GltfFeatureTableAccessorProperty) (a : AccessorJson)
    (bufferView : BufferViewJson) (bufferSource : BufferSource) :
    GltfFeatureTableAccessorProperty :=
  { p with typedArray := getTypedArrayForAccessor a bufferView (some bufferSource) }

/-
  GltfFeatureTable: featureId validation and property variant dispatch.
-/

/-- checkFeatureId from GltfFeatureTable, verbatim: the result is true exactly
    when the debug check throws the DeveloperError whose message reads
    featureId must be between zero and featureCount - 1.  Note the strict
    comparison featureId > featureCount in the source. -/
def checkFeatureId (featureId : ℤ) (featureCount : Option ℤ) : Bool :=
  match featureCount with
  | none => true
  | some n => featureId < 0 || featureId > n

/-- The fields of a GltfFeatureTable needed for the featureId bounds checks:
    featureCount is undefined for descriptor-only tables. -/
structure GltfFeatureTable where
  featureCount : Option ℤ
deriving DecidableEq, Repr

/-- getFeature performs Check.typeOf.number and then checkFeatureId before any
    other work; this predicate is true exactly when it throws the OutOfRange
    DeveloperError. -/
def GltfFeatureTable.getFeatureRaisesOutOfRange (t : GltfFeatureTable)
    (featureId : ℤ) : Bool :=
  checkFeatureId featureId t.featureCount

/-- getPropertyValue performs the same checkFeatureId call first. -/
def GltfFeatureTable.getPropertyValueRaisesOutOfRange (t : GltfFeatureTable)
    (featureId : ℤ) : Bool :=
  checkFeatureId featureId t.featureCount

/-- setPropertyValue performs the same checkFeatureId call first. -/
def GltfFeatureTable.setPropertyValueRaisesOutOfRange (t : GltfFeatureTable)
    (featureId : ℤ) : Bool :=
  checkFeatureId featureId t.featureCount

/-- The bound the claim states for the OutOfRange condition: featureId < 0 or
    featureId >= featureCount (stated from the spec, to be compared with the
    source predicate checkFeatureId). -/
def specOutOfRange (featureId : ℤ) (featureCount : ℤ) : Bool :=
  featureId < 0 || featureId ≥ featureCount

/-- The three property variants a schema entry can be dispatched to by the
    GltfFeatureTable constructor. -/
inductive GltfFeatureTablePropertyVariant where
  | descriptor
  | binary
  | array
deriving DecidableEq, Repr

/-- Which fields a featureProperties entry carries (presence of the
    descriptor, accessor and array members of the JSON object). -/
structure FeaturePropertyJson where
  hasDescriptor : Bool
  hasAccessor : Bool
  hasArray : Bool
deriving DecidableEq, Repr

/-- The variant dispatch in the GltfFeatureTable constructor: an entry with a
    defined descriptor becomes a GltfFeatureTableDescriptorProperty, otherwise
    an entry with a defined accessor becomes a GltfFeatureTableBinaryProperty,
    and every remaining entry becomes a GltfFeatureTableArrayProperty. -/
def selectPropertyVariant (p : FeaturePropertyJson) :
    GltfFeatureTablePropertyVariant :=
  if p.hasDescriptor then .descriptor
  else if p.hasAccessor then .binary
  else .array

/-
  GltfFeatureTableArrayProperty with its copy-on-write discipline.  JavaScript
  arrays are mutated through references, so the model keeps the cache entry
  (the sequence stored in the metadata cache) alongside the property fields
  and records explicitly whether _values points at the cache entry or at a
  privately owned sequence.
-/

/-- A structured JSON-like value held by an array property.  Values are
    immutable data in this model, so clone(value, true) is the identity on
    them; sharing is tracked one level up, at the sequence. -/
inductive GltfJsonValue where
  | null
  | boolean (b : Bool)
  | number (q : ℚ)
  | string (s : String)
deriving DecidableEq, Repr

/-- What the _values field of a GltfFeatureTableArrayProperty references:
    the sequence held by the cache entry, or a privately owned sequence. -/
inductive ValuesRef where
  | cacheRef
  | own (vs : List GltfJsonValue)
deriving DecidableEq, Repr

/-- One GltfFeatureTableArrayProperty together with the cache entry its
    _values may be shared with.  values = none models an undefined _values
    (external sequence not yet resolved); fromCache is the _fromCache flag. -/
structure GltfFeatureTableArrayProperty where
  cacheValues : List GltfJsonValue
  values : Option ValuesRef
  fromCache : Bool
deriving DecidableEq, Repr

/-- Dereference a values reference against the current cache entry. -/
def GltfFeatureTableArrayProperty.deref (s : GltfFeatureTableArrayProperty) :
    ValuesRef → List GltfJsonValue
  | .cacheRef => s.cacheValues
  | .own vs => vs

/-- The continuation registered on cache.getExternalValues in the constructor:
    on resolution it points _values at the sequence held by the cache and sets
    _fromCache to true. -/
def GltfFeatureTableArrayProperty.bindFetchedValues
    (s : GltfFeatureTableArrayProperty) : GltfFeatureTableArrayProperty :=
  { s with values := some .cacheRef, fromCache := true }

/-- getValue from GltfFeatureTableArrayProperty: undefined when _values is
    undefined, else a deep copy of the element at featureId (the identity on
    the immutable values of the model; an out-of-range read, undefined in
    JavaScript, is modelled as null and exercised by no claim). -/
def GltfFeatureTableArrayProperty.getValue (s : GltfFeatureTableArrayProperty)
    (featureId : ℕ) : Option GltfJsonValue :=
  match s.values with
  | none => none
  | some r => some ((s.deref r).getD featureId .null)

/-- setValue from GltfFeatureTableArrayProperty: returns silently when _values
    is undefined; when _fromCache is set it first deep-copies the whole
    sequence into a private array and clears the flag, and only then writes a
    deep copy of the value into slot featureId of whatever array _values now
    references.  The cacheRef write branch is the semantics the source would
    have when writing through a shared reference without copying; the source
    only reaches it with fromCache false, that is, never while sharing. -/
def GltfFeatureTableArrayProperty.setValue (s : GltfFeatureTableArrayProperty)
    (featureId : ℕ) (value : GltfJsonValue) : GltfFeatureTableArrayProperty :=
  match s.values with
  | none => s
  | some r =>
    if s.fromCache then
      let copied := s.deref r
      { s with
        values := some (.own (copied.set featureId value))
        fromCache := false }
    else
      match r with
      | .cacheRef => { s with cacheValues := s.cacheValues.set featureId value }
      | .own vs => { s with values := some (.own (vs.set featureId value)) }

/-
  GltfFeatureMetadataCache: deduplicated fetch of external JSON documents and
  byte buffers.  URIs (already resolved against the base resource) are natural
  numbers; documents are association lists.  The _promiseCache entry for a URI
  carries, in registration order, the continuations chained on the single
  promise stored there: the head is the continuation of the request that
  created the promise.
-/

/-- The kind of a continuation chained on a cached promise: a
    getExternalValues caller waiting for the value under its key, or a
    getExternalBuffer caller. -/
inductive CacheRequestKind where
  | values (key : String)
  | buffer
deriving DecidableEq, Repr

/-- The payload a fetch settles with: the parsed JSON document of fetchJson or
    the byte payload of fetchArrayBuffer. -/
inductive FetchPayload where
  | json (doc : List (String × GltfJsonValue))
  | bytes (data : List ℕ)
deriving DecidableEq, Repr

/-- The document stored in _jsonCache by the then-callback.  In the source the
    raw settled value is stored; a fetch created by getExternalValues settles
    with a JSON document, and no trace considered below settles a promise with
    a payload of the other kind. -/
def docOfPayload : FetchPayload → List (String × GltfJsonValue)
  | .json doc => doc
  | .bytes _ => []

/-- The bytes stored in _bufferCache by the then-callback (new Uint8Array of
    the settled value; a non-buffer argument yields a zero-length view). -/
def bytesOfPayload : FetchPayload → List ℕ
  | .bytes data => data
  | .json _ => []

/-- The state of one GltfFeatureMetadataCache: _jsonCache, _bufferCache and
    _promiseCache keyed by resolved URI, plus an instrumentation counter of
    how many underlying fetch operations have been issued per URI. -/
structure GltfFeatureMetadataCache where
  jsonCache : ℕ → Option (List (String × GltfJsonValue))
  bufferCache : ℕ → Option (List ℕ)
  promiseCache : ℕ → Option (List CacheRequestKind)
  fetchCount : ℕ → ℕ

/-- A freshly constructed cache: all three maps empty. -/
def emptyCache : GltfFeatureMetadataCache :=
  { jsonCache := fun _ => none
    bufferCache := fun _ => none
    promiseCache := fun _ => none
    fetchCount := fun _ => 0 }

/-- Pointwise map update. -/
def updAt {α : Type} (f : ℕ → α) (u : ℕ) (x : α) : ℕ → α :=
  fun v => if v = u then x else f v

/-- What a call to getExternalValues or getExternalBuffer hands back to its
    caller: a value served synchronously from _jsonCache, a buffer served
    synchronously from _bufferCache, or a future chained on the in-flight
    promise for the URI. -/
inductive CacheCallResult where
  | immediateValue (v : Option GltfJsonValue)
  | immediateBuffer (data : List ℕ)
  | futureOn (u : ℕ)
deriving DecidableEq, Repr

/-- getExternalValues from GltfFeatureMetadataCache: serve from _jsonCache if
    resolved; otherwise create the promise (issuing the fetch) only when none
    is in flight, and chain this caller on the promise for the URI. -/
def GltfFeatureMetadataCache.getExternalValues (c : GltfFeatureMetadataCache)
    (u : ℕ) (key : String) : GltfFeatureMetadataCache × CacheCallResult :=
  match c.jsonCache u with
  | some doc => (c, .immediateValue (doc.lookup key))
  | none =>
    match c.promiseCache u with
    | some conts =>
      ({ c with promiseCache := updAt c.promiseCache u (some (conts ++ [.values key])) },
        .futureOn u)
    | none =>
      ({ c with
          promiseCache := updAt c.promiseCache u (some [.values key])
          fetchCount := updAt c.fetchCount u (c.fetchCount u + 1) },
        .futureOn u)

/-- getExternalBuffer from GltfFeatureMetadataCache: same discipline against
    _bufferCache and the shared _promiseCache. -/
def GltfFeatureMetadataCache.getExternalBuffer (c : GltfFeatureMetadataCache)
    (u : ℕ) : GltfFeatureMetadataCache × CacheCallResult :=
  match c.bufferCache u with
  | some data => (c, .immediateBuffer data)
  | none =>
    match c.promiseCache u with
    | some conts =>
      ({ c with promiseCache := updAt c.promiseCache u (some (conts ++ [.buffer])) },
        .futureOn u)
    | none =>
      ({ c with
          promiseCache := updAt c.promiseCache u (some [.buffer])
          fetchCount := updAt c.fetchCount u (c.fetchCount u + 1) },
        .futureOn u)

/-- Effect on the cache of one continuation running when the promise for u
    settles (outcome = some payload for fulfilment, none for rejection): the
    then / otherwise callbacks write their cache entry and delete the promise
    entry only while the promise entry is still present, so the first
    continuation to run performs the write and the rest skip it.  A rejection
    stores the empty document or the zero-length buffer. -/
def runContinuation (c : GltfFeatureMetadataCache) (u : ℕ)
    (k : CacheRequestKind) (outcome : Option FetchPayload) :
    GltfFeatureMetadataCache :=
  match c.promiseCache u with
  | none => c
  | some _ =>
    match k, outcome with
    | .values _, some payload =>
      { c with
        jsonCache := updAt c.jsonCache u (some (docOfPayload payload))
        promiseCache := updAt c.promiseCache u none }
    | .values _, none =>
      { c with
        jsonCache := updAt c.jsonCache u (some [])
        promiseCache := updAt c.promiseCache u none }
    | .buffer, some payload =>
      { c with
        bufferCache := updAt c.bufferCache u (some (bytesOfPayload payload))
        promiseCache := updAt c.promiseCache u none }
    | .buffer, none =>
      { c with
        bufferCache := updAt c.bufferCache u (some [])
        promiseCache := updAt c.promiseCache u none }

/-- What the continuation k delivers to its waiter, evaluated against the
    cache state right after its effect: a values continuation returns the
    value under its key in the settled document (undefined on rejection), and
    a buffer continuation returns the current _bufferCache entry.  Producing a
    result here models that the otherwise-callbacks turn a rejected fetch into
    a resolution: no waiter observes a rejection. -/
def waiterResult (c : GltfFeatureMetadataCache) (u : ℕ) (k : CacheRequestKind)
    (outcome : Option FetchPayload) : CacheCallResult :=
  match k with
  | .values key =>
    match outcome with
    | some payload => .immediateValue ((docOfPayload payload).lookup key)
    | none => .immediateValue none
  | .buffer => .immediateBuffer ((c.bufferCache u).getD [])

/-- One step of the settlement fold: run the next continuation and record what
    it delivers. -/
def settleStep (u : ℕ) (outcome : Option FetchPayload)
    (acc : GltfFeatureMetadataCache × List CacheCallResult)
    (k : CacheRequestKind) : GltfFeatureMetadataCache × List CacheCallResult :=
  let c1 := runContinuation acc.1 u k outcome
  (c1, acc.2 ++ [waiterResult c1 u k outcome])

/-- Settlement of the in-flight promise for u: every chained continuation runs
    in registration order.  Returns the cache state afterwards and the values
    delivered to the waiters in order (the head is the creator of the
    promise). -/
def settlePromise (c : GltfFeatureMetadataCache) (u : ℕ)
    (outcome : Option FetchPayload) :
    GltfFeatureMetadataCache × List CacheCallResult :=
  match c.promiseCache u with
  | none => (c, [])
  | some conts => conts.foldl (settleStep u outcome) (c, [])

/-- The observable events of the cache lifecycle: the two request entry points
    and the settlement of the fetch for a URI. -/
inductive CacheEvent where
  | reqValues (u : ℕ) (key : String)
  | reqBuffer (u : ℕ)
  | settle (u : ℕ) (outcome : Option FetchPayload)
deriving DecidableEq, Repr

/-- The cache-state effect of one event. -/
def stepCache (c : GltfFeatureMetadataCache) : CacheEvent → GltfFeatureMetadataCache
  | .reqValues u key => (c.getExternalValues u key).1
  | .reqBuffer u => (c.getExternalBuffer u).1
  | .settle u outcome => (settlePromise c u outcome).1

/-- Run a trace of events against a freshly constructed cache. -/
def execCache (t : List CacheEvent) : GltfFeatureMetadataCache :=
  t.foldl stepCache emptyCache

/-- The URI an event addresses. -/
def CacheEvent.uri : CacheEvent → ℕ
  | .reqValues u _ => u
  | .reqBuffer u => u
  | .settle u _ => u

/-- Agreement of two cache states on every component of one URI. -/
def agreeAt (v : ℕ) (c d : GltfFeatureMetadataCache) : Prop :=
  c.jsonCache v = d.jsonCache v ∧ c.bufferCache v = d.bufferCache v ∧
    c.promiseCache v = d.promiseCache v ∧ c.fetchCount v = d.fetchCount v

theorem agreeAt_refl (v : ℕ) (c : GltfFeatureMetadataCache) : agreeAt v c c :=
  ⟨rfl, rfl, rfl, rfl⟩

theorem agreeAt_trans {v : ℕ} {c d e : GltfFeatureMetadataCache}
    (h1 : agreeAt v c d) (h2 : agreeAt v d e) : agreeAt v c e := by
  obtain ⟨a1, b1, p1, f1⟩ := h1
  obtain ⟨a2, b2, p2, f2⟩ := h2
  exact ⟨a1.trans a2, b1.trans b2, p1.trans p2, f1.trans f2⟩

theorem updAt_ne {α : Type} (f : ℕ → α) (u v : ℕ) (x : α) (h : v ≠ u) :
    updAt f u x v = f v := by
  simp [updAt, h]

theorem updAt_self {α : Type} (f : ℕ → α) (u : ℕ) (x : α) :
    updAt f u x u = x := by
  simp [updAt]

theorem runContinuation_noPromise {c : GltfFeatureMetadataCache} {u : ℕ}
    (k : CacheRequestKind) (outcome : Option FetchPayload)
    (h : c.promiseCache u = none) : runContinuation c u k outcome = c := by
  simp [runContinuation, h]

theorem runContinuation_agreeAt {u v : ℕ} (h : u ≠ v)
    (c : GltfFeatureMetadataCache) (k : CacheRequestKind)
    (outcome : Option FetchPayload) :
    agreeAt v c (runContinuation c u k outcome) := by
  unfold runContinuation
  match hp : c.promiseCache u with
  | none => exact agreeAt_refl v c
  | some conts =>
    have hvu : v ≠ u := fun hh => h hh.symm
    cases k with
    | values key =>
      cases outcome with
      | some payload => exact ⟨by simp [updAt_ne _ _ _ _ hvu], rfl, by simp [updAt_ne _ _ _ _ hvu], rfl⟩
      | none => exact ⟨by simp [updAt_ne _ _ _ _ hvu], rfl, by simp [updAt_ne _ _ _ _ hvu], rfl⟩
    | buffer =>
      cases outcome with
      | some payload => exact ⟨rfl, by simp [updAt_ne _ _ _ _ hvu], by simp [updAt_ne _ _ _ _ hvu], rfl⟩
      | none => exact ⟨rfl, by simp [updAt_ne _ _ _ _ hvu], by simp [updAt_ne _ _ _ _ hvu], rfl⟩

theorem settleFold_agreeAt {u v : ℕ} (h : u ≠ v)
    (conts : List CacheRequestKind) (outcome : Option FetchPayload) :
    ∀ (c : GltfFeatureMetadataCache) (acc : List CacheCallResult),
      agreeAt v c ((conts.foldl (settleStep u outcome) (c, acc)).1) := by
  induction conts with
  | nil => intro c acc; exact agreeAt_refl v c
  | cons k rest ih =>
    intro c acc
    have h1 := runContinuation_agreeAt h c k outcome
    exact agreeAt_trans h1 (ih (runContinuation c u k outcome) _)

theorem settleFold_noPromise {u : ℕ} (outcome : Option FetchPayload)
    (conts : List CacheRequestKind) :
    ∀ (c : GltfFeatureMetadataCache) (acc : List CacheCallResult),
      c.promiseCache u = none →
      (conts.foldl (settleStep u outcome) (c, acc)).1 = c := by
  induction conts with
  | nil => intro c acc _; rfl
  | cons k rest ih =>
    intro c acc h
    have hr : runContinuation c u k outcome = c := runContinuation_noPromise k outcome h
    show (rest.foldl (settleStep u outcome) (settleStep u outcome (c, acc) k)).1 = c
    simp only [settleStep, hr]
    exact ih c _ h

theorem stepCache_agreeAt {v : ℕ} (c : GltfFeatureMetadataCache)
    (e : CacheEvent) (h : e.uri ≠ v) : agreeAt v c (stepCache c e) := by
  cases e with
  | reqValues u key =>
    have hvu : v ≠ u := fun hh => h hh.symm
    rcases hj : c.jsonCache u with _ | doc
    · rcases hp : c.promiseCache u with _ | conts
      · simp only [stepCache, GltfFeatureMetadataCache.getExternalValues, hj, hp]
        exact ⟨rfl, rfl, by simp [updAt_ne _ _ _ _ hvu], by simp [updAt_ne _ _ _ _ hvu]⟩
      · simp only [stepCache, GltfFeatureMetadataCache.getExternalValues, hj, hp]
        exact ⟨rfl, rfl, by simp [updAt_ne _ _ _ _ hvu], rfl⟩
    · simp only [stepCache, GltfFeatureMetadataCache.getExternalValues, hj]
      exact agreeAt_refl v c
  | reqBuffer u =>
    have hvu : v ≠ u := fun hh => h hh.symm
    rcases hb : c.bufferCache u with _ | data
    · rcases hp : c.promiseCache u with _ | conts
      · simp only [stepCache, GltfFeatureMetadataCache.getExternalBuffer, hb, hp]
        exact ⟨rfl, rfl, by simp [updAt_ne _ _ _ _ hvu], by simp [updAt_ne _ _ _ _ hvu]⟩
      · simp only [stepCache, GltfFeatureMetadataCache.getExternalBuffer, hb, hp]
        exact ⟨rfl, rfl, by simp [updAt_ne _ _ _ _ hvu], rfl⟩
    · simp only [stepCache, GltfFeatureMetadataCache.getExternalBuffer, hb]
      exact agreeAt_refl v c
  | settle u outcome =>
    rcases hp : c.promiseCache u with _ | conts
    · simp only [stepCache, settlePromise, hp]
      exact agreeAt_refl v c
    · simp only [stepCache, settlePromise, hp]
      exact settleFold_agreeAt h conts outcome c []

/-- Whether a chained continuation belongs to a getExternalValues caller. -/
def isValuesKind : CacheRequestKind → Bool
  | .values _ => true
  | .buffer => false

/-- The per-URI cache invariant for a URI accessed only through
    getExternalValues: no resolved JSON entry coexists with an in-flight
    promise, no buffer entry appears, the underlying fetch has been issued at
    most once, a fetch has been issued as soon as any entry exists, and every
    continuation chained on the promise is a values continuation. -/
def CacheInv (c : GltfFeatureMetadataCache) (u : ℕ) : Prop :=
  (¬((c.jsonCache u).isSome ∧ (c.promiseCache u).isSome)) ∧
  c.bufferCache u = none ∧
  c.fetchCount u ≤ 1 ∧
  (c.jsonCache u = none → c.promiseCache u = none → c.fetchCount u = 0) ∧
  (∀ conts, c.promiseCache u = some conts → conts.all isValuesKind = true)

/-- Events compatible with URI u being accessed only through
    getExternalValues: no getExternalBuffer request addresses u. -/
def eventOkForValuesAt (u : ℕ) : CacheEvent → Bool
  | .reqValues _ _ => true
  | .reqBuffer v => v != u
  | .settle _ _ => true

theorem cacheInv_of_agreeAt {u : ℕ} {c d : GltfFeatureMetadataCache}
    (h : agreeAt u c d) (hi : CacheInv c u) : CacheInv d u := by
  obtain ⟨ha, hb, hp, hf⟩ := h
  obtain ⟨i1, i2, i3, i4, i5⟩ := hi
  refine ⟨?_, ?_, ?_, ?_, ?_⟩
  · rw [← ha, ← hp]; exact i1
  · rw [← hb]; exact i2
  · rw [← hf]; exact i3
  · rw [← ha, ← hp, ← hf]; exact i4
  · rw [← hp]; exact i5

theorem cacheInv_empty (u : ℕ) : CacheInv emptyCache u := by
  refine ⟨?_, rfl, ?_, ?_, ?_⟩
  · simp [emptyCache]
  · simp [emptyCache]
  · intro _ _; rfl
  · intro conts h; simp [emptyCache] at h


theorem cacheInv_step {u : ℕ} {c : GltfFeatureMetadataCache} {e : CacheEvent}
    (hok : eventOkForValuesAt u e = true) (hi : CacheInv c u) :
    CacheInv (stepCache c e) u := by
  obtain ⟨i1, i2, i3, i4, i5⟩ := hi
  cases e with
  | reqValues v key =>
    by_cases hvu : v = u
    · subst hvu
      rcases hj : c.jsonCache v with _ | doc
      · rcases hp : c.promiseCache v with _ | conts
        · simp only [stepCache, GltfFeatureMetadataCache.getExternalValues, hj, hp]
          have hf0 : c.fetchCount v = 0 := i4 hj hp
          refine ⟨?_, i2, ?_, ?_, ?_⟩
          · simp [hj]
          · simp [updAt_self, hf0]
          · intro _ h2; simp only [updAt_self] at h2; exact absurd h2 (by simp)
          · intro conts2 h2; simp only [updAt_self] at h2
            injection h2 with h3; rw [← h3]; simp [isValuesKind]
        · simp only [stepCache, GltfFeatureMetadataCache.getExternalValues, hj, hp]
          refine ⟨?_, i2, i3, ?_, ?_⟩
          · simp [hj]
          · intro _ h2; simp only [updAt_self] at h2; exact absurd h2 (by simp)
          · intro conts2 h2; simp only [updAt_self] at h2
            injection h2 with h3; rw [← h3]
            simp [List.all_append, i5 conts hp, isValuesKind]
      · simp only [stepCache, GltfFeatureMetadataCache.getExternalValues, hj]
        exact ⟨i1, i2, i3, i4, i5⟩
    · exact cacheInv_of_agreeAt
        (stepCache_agreeAt c _ (by simpa using hvu)) ⟨i1, i2, i3, i4, i5⟩
  | reqBuffer v =>
    have hvu : v ≠ u := by simpa [eventOkForValuesAt] using hok
    exact cacheInv_of_agreeAt
      (stepCache_agreeAt c _ (by simpa using hvu)) ⟨i1, i2, i3, i4, i5⟩
  | settle v outcome =>
    by_cases hvu : v = u
    · subst hvu
      rcases hp : c.promiseCache v with _ | conts
      · simp only [stepCache, settlePromise, hp]
        exact ⟨i1, i2, i3, i4, i5⟩
      · have hall := i5 conts hp
        cases conts with
        | nil =>
          simp only [stepCache, settlePromise, hp, List.foldl_nil]
          exact ⟨i1, i2, i3, i4, i5⟩
        | cons k rest =>
          have hk : isValuesKind k = true :=
            List.all_eq_true.mp hall k (by simp)
          cases k with
          | buffer => simp [isValuesKind] at hk
          | values key =>
            simp only [stepCache, settlePromise, hp, List.foldl_cons]
            have hrun :
                ∃ doc, runContinuation c v (.values key) outcome =
                  { c with
                    jsonCache := updAt c.jsonCache v (some doc)
                    promiseCache := updAt c.promiseCache v none } := by
              rcases outcome with _ | payload
              · exact ⟨[], by simp [runContinuation, hp]⟩
              · exact ⟨docOfPayload payload, by simp [runContinuation, hp]⟩
            obtain ⟨doc, hdoc⟩ := hrun
            have hfold :
                ((rest.foldl (settleStep v outcome)
                  (settleStep v outcome (c, []) (.values key))).1) =
                  runContinuation c v (.values key) outcome := by
              show ((rest.foldl (settleStep v outcome)
                (runContinuation c v (.values key) outcome,
                  [waiterResult (runContinuation c v (.values key) outcome) v
                    (.values key) outcome])).1) =
                runContinuation c v (.values key) outcome
              refine settleFold_noPromise outcome rest _ _ ?_
              rw [hdoc]; exact updAt_self _ _ _
            rw [hfold, hdoc]
            refine ⟨?_, i2, i3, ?_, ?_⟩
            · simp [updAt_self]
            · intro h1 _; simp only [updAt_self] at h1; exact absurd h1 (by simp)
            · intro conts2 h2; simp only [updAt_self] at h2; exact absurd h2 (by simp)
    · have hne : CacheEvent.uri (CacheEvent.settle v outcome) ≠ u := by simpa using hvu
      exact cacheInv_of_agreeAt (stepCache_agreeAt c _ hne) ⟨i1, i2, i3, i4, i5⟩

theorem cacheInv_fold (u : ℕ) :
    ∀ (t : List CacheEvent) (c : GltfFeatureMetadataCache),
      (∀ e ∈ t, eventOkForValuesAt u e = true) → CacheInv c u →
      CacheInv (t.foldl stepCache c) u := by
  intro t
  induction t with
  | nil => intro c _ hc; exact hc
  | cons e rest ih =>
    intro c hok hc
    exact ih (stepCache c e) (fun e2 he2 => hok e2 (by simp [he2]))
      (cacheInv_step (hok e (by simp)) hc)

theorem cacheInv_trace (u : ℕ) (t : List CacheEvent)
    (hok : ∀ e ∈ t, eventOkForValuesAt u e = true) :
    CacheInv (execCache t) u :=
  cacheInv_fold u t emptyCache hok (cacheInv_empty u)

/-- Events compatible with URI u being accessed only through
    getExternalBuffer: no getExternalValues request addresses u. -/
def eventOkForBufferAt (u : ℕ) : CacheEvent → Bool
  | .reqValues v _ => v != u
  | .reqBuffer _ => true
  | .settle _ _ => true

/-- The per-URI cache invariant for a URI accessed only through
    getExternalBuffer, the mirror image of CacheInv: no resolved buffer entry
    coexists with an in-flight promise, no JSON entry appears, the underlying
    fetch has been issued at most once, a fetch has been issued as soon as
    any entry exists, and every continuation chained on the promise is a
    buffer continuation. -/
def BufferCacheInv (c : GltfFeatureMetadataCache) (u : ℕ) : Prop :=
  (¬((c.bufferCache u).isSome = true ∧ (c.promiseCache u).isSome = true)) ∧
  c.jsonCache u = none ∧
  c.fetchCount u ≤ 1 ∧
  (c.bufferCache u = none → c.promiseCache u = none → c.fetchCount u = 0) ∧
  (∀ conts, c.promiseCache u = some conts →
    conts.all (fun k => !isValuesKind k) = true)

theorem bufferCacheInv_of_agreeAt {u : ℕ} {c d : GltfFeatureMetadataCache}
    (h : agreeAt u c d) (hi : BufferCacheInv c u) : BufferCacheInv d u := by
  obtain ⟨ha, hb, hp, hf⟩ := h
  obtain ⟨i1, i2, i3, i4, i5⟩ := hi
  refine ⟨?_, ?_, ?_, ?_, ?_⟩
  · rw [← hb, ← hp]; exact i1
  · rw [← ha]; exact i2
  · rw [← hf]; exact i3
  · rw [← hb, ← hp, ← hf]; exact i4
  · rw [← hp]; exact i5

theorem bufferCacheInv_empty (u : ℕ) : BufferCacheInv emptyCache u := by
  refine ⟨?_, rfl, ?_, ?_, ?_⟩
  · simp [emptyCache]
  · simp [emptyCache]
  · intro _ _; rfl
  · intro conts h; simp [emptyCache] at h

theorem bufferCacheInv_step {u : ℕ} {c : GltfFeatureMetadataCache}
    {e : CacheEvent} (hok : eventOkForBufferAt u e = true)
    (hi : BufferCacheInv c u) : BufferCacheInv (stepCache c e) u := by
  obtain ⟨i1, i2, i3, i4, i5⟩ := hi
  cases e with
  | reqBuffer v =>
    by_cases hvu : v = u
    · subst hvu
      rcases hb : c.bufferCache v with _ | data
      · rcases hp : c.promiseCache v with _ | conts
        · simp only [stepCache, GltfFeatureMetadataCache.getExternalBuffer, hb, hp]
          have hf0 : c.fetchCount v = 0 := i4 hb hp
          refine ⟨?_, i2, ?_, ?_, ?_⟩
          · simp [hb]
          · simp [updAt_self, hf0]
          · intro _ h2; simp only [updAt_self] at h2; exact absurd h2 (by simp)
          · intro conts2 h2; simp only [updAt_self] at h2
            injection h2 with h3; rw [← h3]; simp [isValuesKind]
        · simp only [stepCache, GltfFeatureMetadataCache.getExternalBuffer, hb, hp]
          refine ⟨?_, i2, i3, ?_, ?_⟩
          · simp [hb]
          · intro _ h2; simp only [updAt_self] at h2; exact absurd h2 (by simp)
          · intro conts2 h2; simp only [updAt_self] at h2
            injection h2 with h3; rw [← h3, List.all_append, i5 conts hp]
            rfl
      · simp only [stepCache, GltfFeatureMetadataCache.getExternalBuffer, hb]
        exact ⟨i1, i2, i3, i4, i5⟩
    · exact bufferCacheInv_of_agreeAt
        (stepCache_agreeAt c _ (by simpa using hvu)) ⟨i1, i2, i3, i4, i5⟩
  | reqValues v key =>
    have hvu : v ≠ u := by simpa [eventOkForBufferAt] using hok
    exact bufferCacheInv_of_agreeAt
      (stepCache_agreeAt c _ (by simpa using hvu)) ⟨i1, i2, i3, i4, i5⟩
  | settle v outcome =>
    by_cases hvu : v = u
    · subst hvu
      rcases hp : c.promiseCache v with _ | conts
      · simp only [stepCache, settlePromise, hp]
        exact ⟨i1, i2, i3, i4, i5⟩
      · have hall := i5 conts hp
        cases conts with
        | nil =>
          simp only [stepCache, settlePromise, hp, List.foldl_nil]
          exact ⟨i1, i2, i3, i4, i5⟩
        | cons k rest =>
          have hk : (!isValuesKind k) = true :=
            List.all_eq_true.mp hall k (by simp)
          cases k with
          | values key => simp [isValuesKind] at hk
          | buffer =>
            simp only [stepCache, settlePromise, hp, List.foldl_cons]
            have hrun :
                ∃ data, runContinuation c v .buffer outcome =
                  { c with
                    bufferCache := updAt c.bufferCache v (some data)
                    promiseCache := updAt c.promiseCache v none } := by
              rcases outcome with _ | payload
              · exact ⟨[], by simp [runContinuation, hp]⟩
              · exact ⟨bytesOfPayload payload, by simp [runContinuation, hp]⟩
            obtain ⟨data, hdata⟩ := hrun
            have hfold :
                ((rest.foldl (settleStep v outcome)
                  (settleStep v outcome (c, []) .buffer)).1) =
                  runContinuation c v .buffer outcome := by
              show ((rest.foldl (settleStep v outcome)
                (runContinuation c v .buffer outcome,
                  [waiterResult (runContinuation c v .buffer outcome) v
                    .buffer outcome])).1) =
                runContinuation c v .buffer outcome
              refine settleFold_noPromise outcome rest _ _ ?_
              rw [hdata]; exact updAt_self _ _ _
            rw [hfold, hdata]
            refine ⟨?_, i2, i3, ?_, ?_⟩
            · simp [updAt_self]
            · intro h1 _; simp only [updAt_self] at h1; exact absurd h1 (by simp)
            · intro conts2 h2; simp only [updAt_self] at h2; exact absurd h2 (by simp)
    · have hne : CacheEvent.uri (CacheEvent.settle v outcome) ≠ u := by simpa using hvu
      exact bufferCacheInv_of_agreeAt (stepCache_agreeAt c _ hne) ⟨i1, i2, i3, i4, i5⟩

theorem bufferCacheInv_fold (u : ℕ) :
    ∀ (t : List CacheEvent) (c : GltfFeatureMetadataCache),
      (∀ e ∈ t, eventOkForBufferAt u e = true) → BufferCacheInv c u →
      BufferCacheInv (t.foldl stepCache c) u := by
  intro t
  induction t with
  | nil => intro c _ hc; exact hc
  | cons e rest ih =>
    intro c hok hc
    exact ih (stepCache c e) (fun e2 he2 => hok e2 (by simp [he2]))
      (bufferCacheInv_step (hok e (by simp)) hc)

theorem bufferCacheInv_trace (u : ℕ) (t : List CacheEvent)
    (hok : ∀ e ∈ t, eventOkForBufferAt u e = true) :
    BufferCacheInv (execCache t) u :=
  bufferCacheInv_fold u t emptyCache hok (bufferCacheInv_empty u)

/-
  Claim theorems.
-/

/-- Claim C1 (code bug): with featureCount = 1, featureId = 1 satisfies the
    OutOfRange condition of the claim (featureId >= featureCount) and lies
    outside the range zero to featureCount - 1 that the message of the thrown
    DeveloperError itself states, yet checkFeatureId lets it through, because
    the source compares featureId > featureCount instead of >=: getFeature,
    getPropertyValue and setPropertyValue all accept featureId equal to
    featureCount.  The boundary featureId = featureCount - 1 is accepted and
    featureId = -1 is rejected, as claimed. -/
theorem C1_featureId_boundary_bug :
    specOutOfRange 1 1 = true ∧
    (GltfFeatureTable.getFeatureRaisesOutOfRange { featureCount := some 1 } 1 = false ∧
      GltfFeatureTable.getPropertyValueRaisesOutOfRange { featureCount := some 1 } 1 = false ∧
      GltfFeatureTable.setPropertyValueRaisesOutOfRange { featureCount := some 1 } 1 = false) ∧
    (GltfFeatureTable.getFeatureRaisesOutOfRange { featureCount := some 1 } 0 = false ∧
      GltfFeatureTable.getFeatureRaisesOutOfRange { featureCount := some 1 } (-1) = true) := by
  decide

/-- Claim C10: the constructor dispatches each featureProperties entry by
    field presence with the fixed precedence descriptor, then accessor, then
    the array fallback: a descriptor entry becomes a descriptor property even
    if an accessor field is also present, and an entry with neither field
    becomes an array property even without an array field. -/
theorem C10_variant_dispatch :
    (∀ (d a arr : Bool),
      selectPropertyVariant { hasDescriptor := d, hasAccessor := a, hasArray := arr } =
        if d then .descriptor else if a then .binary else .array) ∧
    selectPropertyVariant { hasDescriptor := true, hasAccessor := true, hasArray := false } =
      .descriptor ∧
    selectPropertyVariant { hasDescriptor := false, hasAccessor := true, hasArray := true } =
      .binary ∧
    selectPropertyVariant { hasDescriptor := false, hasAccessor := false, hasArray := false } =
      .array :=
  ⟨fun _ _ _ => rfl, rfl, rfl, rfl⟩

/-- The accessor property state the claims C2 and C9 describe: a bound typed
    array holding the given raw components, all other fields exactly as the
    constructor computes them for the given component type with the
    normalized flag requested. -/
def boundNormalizedProperty (componentType : ComponentDatatype)
    (raw : List ℚ) : GltfFeatureTableAccessorProperty :=
  { componentType := componentType
    componentCount := 1
    count := raw.length
    typedArray := some raw
    signed := isSignedComponentType componentType
    normalized := isNormalized true componentType
    lowestValue := getLowestValue componentType
    maximumValue := getMaximumValue componentType
    initializedWithZeros := false }

/-- Claim C2 (code bug): for unsigned byte data the source computes the
    decode divisor as 2 to the byte width minus one, because the local
    variable bitDepth in getMaximumValue holds
    ComponentDatatype.getSizeInBytes, a byte count, not a bit count.  The
    divisor is therefore 1 instead of 2 to the 8 minus 1 = 255, and getValue
    on a normalized unsigned-byte property returns 255, not 1.0, for the raw
    component 255 (raw 0 does give 0.0). -/
theorem C2_unsigned_byte_normalization_bug :
    getMaximumValue UNSIGNED_BYTE = 1 ∧
    ((2 : ℚ) ^ (8 * getSizeInBytes UNSIGNED_BYTE) - 1 = 255) ∧
    decodeValue (boundNormalizedProperty UNSIGNED_BYTE [255]) 255 = 255 ∧
    (boundNormalizedProperty UNSIGNED_BYTE [255]).getValue 0 =
      some (.scalar 255) ∧
    (boundNormalizedProperty UNSIGNED_BYTE [0]).getValue 0 =
      some (.scalar 0) := by
  refine ⟨?_, ?_, ?_, ?_, ?_⟩
  · simp +decide [getMaximumValue, getSizeInBytes]
    norm_num
  · simp [getSizeInBytes]
    norm_num
  · simp +decide [decodeValue, boundNormalizedProperty, isNormalized,
      getMaximumValue, getSizeInBytes]
    norm_num
  · simp +decide [GltfFeatureTableAccessorProperty.getValue, decodeValue,
      boundNormalizedProperty, isNormalized, getMaximumValue, getSizeInBytes]
    norm_num
  · simp +decide [GltfFeatureTableAccessorProperty.getValue, decodeValue,
      boundNormalizedProperty, isNormalized, getMaximumValue, getSizeInBytes]

/-- Claim C9 (code bug): for the signed byte component type the source
    computes the maximum magnitude as 2 to the (byte width - 1) minus 1 = 0
    (the bitDepth variable holds a byte count), so encode collapses every
    value to 0 and the round trip loses x = 1.0 entirely: the error is 1,
    far above one unit of the smallest encodable step 1 / 127 of the claim
    (the spec maximum for signed bytes is 2 to the 7 minus 1 = 127).  In
    JavaScript the decode of the re-encoded value is Math.max(0 / 0, -1.0),
    which is NaN; in the rational model, where 0 / 0 = 0, it is 0.  Either
    way it is not within 1 / 127 of 1. -/
theorem C9_signed_roundtrip_bug :
    getMaximumValue BYTE = 0 ∧
    encodeValue (boundNormalizedProperty BYTE [0]) 1 = 0 ∧
    decodeValue (boundNormalizedProperty BYTE [0])
      (encodeValue (boundNormalizedProperty BYTE [0]) 1) = 0 ∧
    |decodeValue (boundNormalizedProperty BYTE [0])
      (encodeValue (boundNormalizedProperty BYTE [0]) 1) - 1| = 1 ∧
    (1 : ℚ) / 127 < 1 := by
  have hmax : getMaximumValue BYTE = 0 := by
    simp +decide [getMaximumValue, getSizeInBytes]
  have henc : encodeValue (boundNormalizedProperty BYTE [0]) 1 = 0 := by
    simp +decide [encodeValue, boundNormalizedProperty, isNormalized, hmax,
      jsRound]
    norm_num
  have hdec : decodeValue (boundNormalizedProperty BYTE [0])
      (encodeValue (boundNormalizedProperty BYTE [0]) 1) = 0 := by
    rw [henc]
    simp +decide [decodeValue, boundNormalizedProperty, isNormalized, hmax]
  refine ⟨hmax, henc, hdec, ?_, by norm_num⟩
  rw [hdec]
  norm_num

/-- Claim C5: a property in the implicit-zero state returns the additive
    identity of its shape for every featureId.  The source getValue never
    assigns to this (it is modelled as a pure function of the property
    state), so in particular no backing storage is allocated by the read. -/
theorem C5_implicit_zero_reads (p : GltfFeatureTableAccessorProperty)
    (featureId : ℕ) (h : p.initializedWithZeros = true) :
    p.getValue featureId =
      some (if p.componentCount = 1 then .scalar 0
            else zeroComposite p.componentCount) := by
  simp only [GltfFeatureTableAccessorProperty.getValue, h, if_true]
  split <;> simp_all

/-- A property constructed with neither an embedded buffer nor any buffer
    view: never bound and never written, the implicit-zero state of claim
    C5. -/
def implicitZeroProperty : GltfFeatureTableAccessorProperty :=
  mkAccessorProperty
    { componentType := FLOAT, componentCount := 3, count := 4, byteOffset := 0,
      normalized := false, hasBufferView := false, hasBufferViewId := false }
    { byteOffset := 0 } none

theorem C5_implicit_zero_reads_witness :
    implicitZeroProperty.initializedWithZeros = true ∧
    implicitZeroProperty.getValue 2 = some (zeroComposite 3) :=
  ⟨rfl, by
    have h := C5_implicit_zero_reads implicitZeroProperty 2 rfl
    simpa [implicitZeroProperty, mkAccessorProperty] using h⟩

/-- The accessor JSON of a property whose backing buffer is external: it has
    a bufferView (so the constructor finds the buffer and registers the
    getExternalBuffer continuation) and, being a glTF accessor, no field
    named bufferViewId. -/
def externalAccessorJson : AccessorJson :=
  { componentType := UNSIGNED_BYTE, componentCount := 1, count := 1,
    byteOffset := 0, normalized := false, hasBufferView := true,
    hasBufferViewId := false }

/-- The bufferView entry the external accessor references. -/
def externalBufferView : BufferViewJson := { byteOffset := 0 }

/-- The property as constructed while its buffer is still external: the
    buffer source is undefined, so _typedArray is undefined (pending). -/
def pendingExternalProperty : GltfFeatureTableAccessorProperty :=
  mkAccessorProperty externalAccessorJson externalBufferView none

/-- The buffer source the fetch resolves with: a view at offset 0 over the
    single byte 7. -/
def fetchedBufferSource : BufferSource := { byteOffset := 0, data := [7] }

/-- Claim C3 (code bug): the constructor initializes _initializedWithZeros
    from accessor.bufferViewId, a field no glTF accessor has (every other
    line of the source reads accessor.bufferView), so the flag is true even
    for a property whose external buffer has arrived.  After the fetchBuffer
    continuation has bound the decoded view holding the raw component 7,
    getValue still takes the initializedWithZeros branch and returns 0, not
    the decoded value 7 the claim requires (and not the unavailable
    sentinel). -/
theorem C3_post_continuation_read_is_zero :
    pendingExternalProperty.typedArray = none ∧
    (bindFetchedBuffer pendingExternalProperty externalAccessorJson
      externalBufferView fetchedBufferSource).typedArray = some [7] ∧
    pendingExternalProperty.initializedWithZeros = true ∧
    (bindFetchedBuffer pendingExternalProperty externalAccessorJson
      externalBufferView fetchedBufferSource).getValue 0 =
      some (.scalar 0) := by
  refine ⟨rfl, ?_, rfl, ?_⟩
  · simp [bindFetchedBuffer, getTypedArrayForAccessor, createArrayBufferView,
      pendingExternalProperty, mkAccessorProperty, externalAccessorJson,
      externalBufferView, fetchedBufferSource]
  · simp +decide [bindFetchedBuffer, getTypedArrayForAccessor,
      createArrayBufferView, pendingExternalProperty, mkAccessorProperty,
      externalAccessorJson, externalBufferView, fetchedBufferSource,
      GltfFeatureTableAccessorProperty.getValue]

/-- Claim C4 (code bug): for a pending property (external buffer requested,
    not yet resolved: _typedArray undefined) setValue is not a no-op.
    Because _initializedWithZeros is true (the bufferViewId slip of claim
    C3), setValue allocates a dense zero-filled array, clears the flag and
    performs the write, instead of dropping it at the undefined-typed-array
    guard. -/
theorem C4_pending_write_not_dropped :
    pendingExternalProperty.typedArray = none ∧
    (pendingExternalProperty.setValue 0 (.scalar 5)).typedArray = some [5] ∧
    (pendingExternalProperty.setValue 0 (.scalar 5)).initializedWithZeros =
      false ∧
    (pendingExternalProperty.setValue 0 (.scalar 5)).typedArray ≠
      pendingExternalProperty.typedArray := by
  refine ⟨rfl, ?_, ?_, ?_⟩
  · simp +decide [GltfFeatureTableAccessorProperty.setValue,
      pendingExternalProperty, mkAccessorProperty, externalAccessorJson,
      externalBufferView, getTypedArrayForAccessor,
      GltfPropertyValue.components, typedArrayStore, jsTrunc]
  · simp +decide [GltfFeatureTableAccessorProperty.setValue,
      pendingExternalProperty, mkAccessorProperty, externalAccessorJson,
      externalBufferView, getTypedArrayForAccessor]
  · simp +decide [GltfFeatureTableAccessorProperty.setValue,
      pendingExternalProperty, mkAccessorProperty, externalAccessorJson,
      externalBufferView, getTypedArrayForAccessor,
      GltfPropertyValue.components, typedArrayStore, jsTrunc]

/-- Claim C6: setValue on a shared-with-cache array property never mutates
    the sequence stored in the cache: it deep-copies the whole sequence,
    clears the shared flag, and writes into the private copy only. -/
theorem C6_copy_on_write (s : GltfFeatureTableArrayProperty) (featureId : ℕ)
    (value : GltfJsonValue) (r : ValuesRef)
    (hshared : s.fromCache = true) (hv : s.values = some r) :
    (s.setValue featureId value).cacheValues = s.cacheValues ∧
    (s.setValue featureId value).fromCache = false ∧
    (s.setValue featureId value).values =
      some (.own ((s.deref r).set featureId value)) := by
  simp [GltfFeatureTableArrayProperty.setValue, hv, hshared]

/-- An array property sharing its sequence with the cache, as left by the
    getExternalValues continuation. -/
def sharedArrayProperty : GltfFeatureTableArrayProperty :=
  { cacheValues := [.string "cached", .boolean false]
    values := some .cacheRef
    fromCache := true }

theorem C6_copy_on_write_witness :
    sharedArrayProperty.fromCache = true ∧
    sharedArrayProperty.values = some .cacheRef ∧
    (sharedArrayProperty.setValue 0 (.boolean true)).cacheValues =
      [.string "cached", .boolean false] ∧
    (sharedArrayProperty.setValue 0 (.boolean true)).fromCache = false ∧
    (sharedArrayProperty.setValue 0 (.boolean true)).values =
      some (.own [.boolean true, .boolean false]) := by
  have h := C6_copy_on_write sharedArrayProperty 0 (.boolean true) .cacheRef rfl rfl
  exact ⟨rfl, rfl, h.1, h.2.1, by
    simpa [sharedArrayProperty, GltfFeatureTableArrayProperty.deref] using h.2.2⟩

theorem settleFold_results_head {u : ℕ} (outcome : Option FetchPayload)
    (rest : List CacheRequestKind) :
    ∀ (c : GltfFeatureMetadataCache) (a : CacheCallResult)
      (tl : List CacheCallResult),
      ((rest.foldl (settleStep u outcome) (c, a :: tl)).2).head? = some a := by
  induction rest with
  | nil => intro c a tl; rfl
  | cons k rest2 ih =>
    intro c a tl
    show ((rest2.foldl (settleStep u outcome)
      (settleStep u outcome (c, a :: tl) k)).2).head? = some a
    have hstep : settleStep u outcome (c, a :: tl) k =
        (runContinuation c u k outcome,
          a :: (tl ++ [waiterResult (runContinuation c u k outcome) u k outcome])) := by
      simp [settleStep]
    rw [hstep]
    exact ih _ a _

/-- Claim C8: a failed fetch degrades to a cached empty result and resolves
    the waiters instead of rejecting them.  When the promise created by
    getExternalBuffer for u is rejected, the otherwise-callback stores a
    zero-length buffer under u and the future of the creator resolves to that
    zero-length buffer; when the promise created by getExternalValues is
    rejected, the empty document is stored and the future resolves to the
    absent value.  In both cases a subsequent request for u is answered
    synchronously from the cache with the cache state unchanged, so no second
    fetch is issued. -/
theorem C8_fetch_failure_degrades (c1 c2 : GltfFeatureMetadataCache) (u : ℕ)
    (rest1 rest2 : List CacheRequestKind) (key k2 : String)
    (h1 : c1.promiseCache u = some (.buffer :: rest1))
    (h2 : c2.promiseCache u = some (.values key :: rest2)) :
    ((settlePromise c1 u none).1.bufferCache u = some [] ∧
      (settlePromise c1 u none).1.promiseCache u = none ∧
      (settlePromise c1 u none).2.head? = some (.immediateBuffer []) ∧
      (settlePromise c1 u none).1.getExternalBuffer u =
        ((settlePromise c1 u none).1, .immediateBuffer [])) ∧
    ((settlePromise c2 u none).1.jsonCache u = some [] ∧
      (settlePromise c2 u none).1.promiseCache u = none ∧
      (settlePromise c2 u none).2.head? = some (.immediateValue none) ∧
      (settlePromise c2 u none).1.getExternalValues u k2 =
        ((settlePromise c2 u none).1, .immediateValue none)) := by
  constructor
  · have hrun : runContinuation c1 u .buffer none =
        { c1 with
          bufferCache := updAt c1.bufferCache u (some [])
          promiseCache := updAt c1.promiseCache u none } := by
      simp [runContinuation, h1]
    have hstate : (settlePromise c1 u none).1 = runContinuation c1 u .buffer none := by
      simp only [settlePromise, h1, List.foldl_cons]
      show (rest1.foldl (settleStep u none)
        (runContinuation c1 u .buffer none,
          [waiterResult (runContinuation c1 u .buffer none) u .buffer none])).1 =
        runContinuation c1 u .buffer none
      refine settleFold_noPromise none rest1 _ _ ?_
      rw [hrun]; exact updAt_self _ _ _
    have hbuf : (settlePromise c1 u none).1.bufferCache u = some [] := by
      rw [hstate, hrun]; exact updAt_self _ _ _
    have hpr : (settlePromise c1 u none).1.promiseCache u = none := by
      rw [hstate, hrun]; exact updAt_self _ _ _
    refine ⟨hbuf, hpr, ?_, ?_⟩
    · have hw : waiterResult (runContinuation c1 u .buffer none) u .buffer none =
          .immediateBuffer [] := by
        simp [waiterResult, hrun, updAt_self]
      simp only [settlePromise, h1, List.foldl_cons]
      have hstep : settleStep u none (c1, []) .buffer =
          (runContinuation c1 u .buffer none,
            [waiterResult (runContinuation c1 u .buffer none) u .buffer none]) := by
        simp [settleStep]
      rw [hstep, hw]
      exact settleFold_results_head none rest1 _ _ _
    · simp [GltfFeatureMetadataCache.getExternalBuffer, hbuf]
  · have hrun : runContinuation c2 u (.values key) none =
        { c2 with
          jsonCache := updAt c2.jsonCache u (some [])
          promiseCache := updAt c2.promiseCache u none } := by
      simp [runContinuation, h2]
    have hstate : (settlePromise c2 u none).1 =
        runContinuation c2 u (.values key) none := by
      simp only [settlePromise, h2, List.foldl_cons]
      show (rest2.foldl (settleStep u none)
        (runContinuation c2 u (.values key) none,
          [waiterResult (runContinuation c2 u (.values key) none) u (.values key) none])).1 =
        runContinuation c2 u (.values key) none
      refine settleFold_noPromise none rest2 _ _ ?_
      rw [hrun]; exact updAt_self _ _ _
    have hjson : (settlePromise c2 u none).1.jsonCache u = some [] := by
      rw [hstate, hrun]; exact updAt_self _ _ _
    have hpr : (settlePromise c2 u none).1.promiseCache u = none := by
      rw [hstate, hrun]; exact updAt_self _ _ _
    refine ⟨hjson, hpr, ?_, ?_⟩
    · have hw : waiterResult (runContinuation c2 u (.values key) none) u
          (.values key) none = .immediateValue none := by
        simp [waiterResult]
      simp only [settlePromise, h2, List.foldl_cons]
      have hstep : settleStep u none (c2, []) (.values key) =
          (runContinuation c2 u (.values key) none,
            [waiterResult (runContinuation c2 u (.values key) none) u (.values key) none]) := by
        simp [settleStep]
      rw [hstep, hw]
      exact settleFold_results_head none rest2 _ _ _
    · simp [GltfFeatureMetadataCache.getExternalValues, hjson]

/-- A cache with one rejected-to-be buffer promise for URI 0, as left by a
    first getExternalBuffer request. -/
def pendingBufferCacheState : GltfFeatureMetadataCache :=
  (emptyCache.getExternalBuffer 0).1

/-- A cache with one values promise for URI 0, as left by a first
    getExternalValues request. -/
def pendingValuesCacheState : GltfFeatureMetadataCache :=
  (emptyCache.getExternalValues 0 "k").1

theorem C8_fetch_failure_degrades_witness :
    pendingBufferCacheState.promiseCache 0 = some [.buffer] ∧
    pendingValuesCacheState.promiseCache 0 = some [.values "k"] ∧
    (settlePromise pendingBufferCacheState 0 none).1.bufferCache 0 = some [] ∧
    (settlePromise pendingBufferCacheState 0 none).2.head? =
      some (.immediateBuffer []) ∧
    (settlePromise pendingValuesCacheState 0 none).1.jsonCache 0 = some [] ∧
    (settlePromise pendingValuesCacheState 0 none).2.head? =
      some (.immediateValue none) := by
  have h := C8_fetch_failure_degrades pendingBufferCacheState
    pendingValuesCacheState 0 [] [] "k" "k" rfl rfl
  exact ⟨rfl, rfl, h.1.1, h.1.2.2.1, h.2.1, h.2.2.2.1⟩

/-- Claim C7 (counterexample): the invariant and the once-per-URI guarantee
    fail as stated when one URI is requested through both entry points.  The
    trace requests URI 0 through getExternalValues, lets the fetch resolve,
    then requests URI 0 through getExternalBuffer: the buffer path finds
    _bufferCache empty and _promiseCache empty, so it issues a second fetch
    for the same URI, and afterwards the cache holds a resolved JSON entry
    and an in-flight fetch for URI 0 at the same time. -/
theorem C7_counterexample :
    ((execCache [.reqValues 0 "k",
        .settle 0 (some (.json [("k", .boolean true)])),
        .reqBuffer 0]).jsonCache 0).isSome = true ∧
    ((execCache [.reqValues 0 "k",
        .settle 0 (some (.json [("k", .boolean true)])),
        .reqBuffer 0]).promiseCache 0).isSome = true ∧
    (execCache [.reqValues 0 "k",
        .settle 0 (some (.json [("k", .boolean true)])),
        .reqBuffer 0]).fetchCount 0 = 2 := by
  refine ⟨?_, ?_, ?_⟩ <;> rfl

/-- Claim C7 (amended): for every URI accessed through only one of the two
    request kinds, the cache holds at any time at most one kind of entry:
    never a resolved entry together with an in-flight fetch, never an entry
    of the other kind, and the underlying fetch is issued at most once;
    moreover two requests of that kind made while no entry exists are both
    chained on the single promise created by the first, so the fetch is
    issued exactly once.  The first half states this for a
    getExternalValues-only URI, the second half for a
    getExternalBuffer-only URI. -/
theorem C7_dedup_per_uri (t1 t2 : List CacheEvent) (u1 u2 : ℕ) (k1 k2 : String)
    (hok1 : ∀ e ∈ t1, eventOkForValuesAt u1 e = true)
    (hok2 : ∀ e ∈ t2, eventOkForBufferAt u2 e = true) :
    ((¬(((execCache t1).jsonCache u1).isSome = true ∧
        ((execCache t1).promiseCache u1).isSome = true) ∧
      (execCache t1).bufferCache u1 = none ∧
      (execCache t1).fetchCount u1 ≤ 1) ∧
    ((execCache t1).jsonCache u1 = none → (execCache t1).promiseCache u1 = none →
      (execCache (t1 ++ [.reqValues u1 k1, .reqValues u1 k2])).fetchCount u1 = 1 ∧
      (execCache (t1 ++ [.reqValues u1 k1, .reqValues u1 k2])).promiseCache u1 =
        some [.values k1, .values k2])) ∧
    ((¬(((execCache t2).bufferCache u2).isSome = true ∧
        ((execCache t2).promiseCache u2).isSome = true) ∧
      (execCache t2).jsonCache u2 = none ∧
      (execCache t2).fetchCount u2 ≤ 1) ∧
    ((execCache t2).bufferCache u2 = none → (execCache t2).promiseCache u2 = none →
      (execCache (t2 ++ [.reqBuffer u2, .reqBuffer u2])).fetchCount u2 = 1 ∧
      (execCache (t2 ++ [.reqBuffer u2, .reqBuffer u2])).promiseCache u2 =
        some [.buffer, .buffer])) := by
  constructor
  · obtain ⟨i1, i2, i3, i4, i5⟩ := cacheInv_trace u1 t1 hok1
    refine ⟨⟨i1, i2, i3⟩, ?_⟩
    intro hj hp
    have hf0 : (execCache t1).fetchCount u1 = 0 := i4 hj hp
    have happ : execCache (t1 ++ [.reqValues u1 k1, .reqValues u1 k2]) =
        stepCache (stepCache (execCache t1) (.reqValues u1 k1)) (.reqValues u1 k2) := by
      simp [execCache, List.foldl_append]
    have h1 : stepCache (execCache t1) (.reqValues u1 k1) =
        { execCache t1 with
          promiseCache := updAt (execCache t1).promiseCache u1 (some [.values k1])
          fetchCount := updAt (execCache t1).fetchCount u1 ((execCache t1).fetchCount u1 + 1) } := by
      simp [stepCache, GltfFeatureMetadataCache.getExternalValues, hj, hp]
    rw [happ, h1]
    have h2 : stepCache
        { execCache t1 with
          promiseCache := updAt (execCache t1).promiseCache u1 (some [.values k1])
          fetchCount := updAt (execCache t1).fetchCount u1 ((execCache t1).fetchCount u1 + 1) }
        (.reqValues u1 k2) =
        { execCache t1 with
          promiseCache := updAt (updAt (execCache t1).promiseCache u1 (some [.values k1])) u1
            (some ([.values k1] ++ [.values k2]))
          fetchCount := updAt (execCache t1).fetchCount u1 ((execCache t1).fetchCount u1 + 1) } := by
      simp [stepCache, GltfFeatureMetadataCache.getExternalValues, hj, updAt_self]
    rw [h2]
    refine ⟨?_, ?_⟩
    · show updAt (execCache t1).fetchCount u1 ((execCache t1).fetchCount u1 + 1) u1 = 1
      rw [updAt_self, hf0]
    · show updAt (updAt (execCache t1).promiseCache u1 (some [.values k1])) u1
        (some ([.values k1] ++ [.values k2])) u1 = some [.values k1, .values k2]
      rw [updAt_self]
      rfl
  · obtain ⟨i1, i2, i3, i4, i5⟩ := bufferCacheInv_trace u2 t2 hok2
    refine ⟨⟨i1, i2, i3⟩, ?_⟩
    intro hb hp
    have hf0 : (execCache t2).fetchCount u2 = 0 := i4 hb hp
    have happ : execCache (t2 ++ [.reqBuffer u2, .reqBuffer u2]) =
        stepCache (stepCache (execCache t2) (.reqBuffer u2)) (.reqBuffer u2) := by
      simp [execCache, List.foldl_append]
    have h1 : stepCache (execCache t2) (.reqBuffer u2) =
        { execCache t2 with
          promiseCache := updAt (execCache t2).promiseCache u2 (some [.buffer])
          fetchCount := updAt (execCache t2).fetchCount u2 ((execCache t2).fetchCount u2 + 1) } := by
      simp [stepCache, GltfFeatureMetadataCache.getExternalBuffer, hb, hp]
    rw [happ, h1]
    have h2 : stepCache
        { execCache t2 with
          promiseCache := updAt (execCache t2).promiseCache u2 (some [.buffer])
          fetchCount := updAt (execCache t2).fetchCount u2 ((execCache t2).fetchCount u2 + 1) }
        (.reqBuffer u2) =
        { execCache t2 with
          promiseCache := updAt (updAt (execCache t2).promiseCache u2 (some [.buffer])) u2
            (some ([.buffer] ++ [.buffer]))
          fetchCount := updAt (execCache t2).fetchCount u2 ((execCache t2).fetchCount u2 + 1) } := by
      simp [stepCache, GltfFeatureMetadataCache.getExternalBuffer, hb, updAt_self]
    rw [h2]
    refine ⟨?_, ?_⟩
    · show updAt (execCache t2).fetchCount u2 ((execCache t2).fetchCount u2 + 1) u2 = 1
      rw [updAt_self, hf0]
    · show updAt (updAt (execCache t2).promiseCache u2 (some [.buffer])) u2
        (some ([.buffer] ++ [.buffer])) u2 = some [.buffer, .buffer]
      rw [updAt_self]
      rfl

theorem C7_dedup_per_uri_witness :
    (∀ e ∈ ([] : List CacheEvent), eventOkForValuesAt 0 e = true) ∧
    (∀ e ∈ ([] : List CacheEvent), eventOkForBufferAt 0 e = true) ∧
    (execCache ([] ++ [.reqValues 0 "a", .reqValues 0 "b"])).fetchCount 0 = 1 ∧
    (execCache ([] ++ [.reqValues 0 "a", .reqValues 0 "b"])).promiseCache 0 =
      some [.values "a", .values "b"] ∧
    (execCache ([] ++ [.reqBuffer 0, .reqBuffer 0])).fetchCount 0 = 1 ∧
    (execCache ([] ++ [.reqBuffer 0, .reqBuffer 0])).promiseCache 0 =
      some [.buffer, .buffer] := by
  have h := C7_dedup_per_uri [] [] 0 0 "a" "b" (by simp) (by simp)
  exact ⟨by simp, by simp, (h.1.2 rfl rfl).1, (h.1.2 rfl rfl).2,
    (h.2.2 rfl rfl).1, (h.2.2 rfl rfl).2⟩
